import Mathlib

/-!
Verification of the 2-D geometry helpers in `geolib/utils.py`
(`polyline_polyline_intersections`, `top_of_polygon`, `bottom_of_polygon`,
`polyline_z_at`).

Python floats are modelled as rationals, so every comparison and arithmetic
operation in the embedding is exact.  Python runtime errors (`ValueError`,
`ZeroDivisionError`) are modelled with `Except String`.  The geometric
intersection computed by the external shapely library is not code of this
repository; its classified result enters the embedding as data (an inductive
tag), exactly the classification the Python code performs with `type(...)`
checks.
-/

/-- A 2-D point: an ordered pair of coordinates (value equality only). -/
abbrev Point : Type := ℚ × ℚ

namespace Geolib

/-- Python `min(list)`; total with junk value 0 on `[]`, where Python raises. -/
def listMin : List ℚ → ℚ
  | [] => 0
  | x :: xs => xs.foldl min x

/-- Python `max(list)`; total with junk value 0 on `[]`, where Python raises. -/
def listMax : List ℚ → ℚ
  | [] => 0
  | x :: xs => xs.foldl max x

/-- Comparison by x-coordinate, the key `lambda x: x[0]` of the final `sorted`. -/
def leX (p q : Point) : Prop := p.1 ≤ q.1

instance : DecidableRel leX := fun p q => inferInstanceAs (Decidable (p.1 ≤ q.1))

instance : IsTotal Point leX := ⟨fun a b => le_total a.1 b.1⟩

instance : IsTrans Point leX := ⟨fun _ _ _ hab hbc => le_trans hab hbc⟩

/-- Comparison by y-coordinate, the key `lambda x: x[1]` used when selecting
the extreme vertices of a polygon. -/
def leY (p q : Point) : Prop := p.2 ≤ q.2

instance : DecidableRel leY := fun p q => inferInstanceAs (Decidable (p.2 ≤ q.2))

instance : IsTotal Point leY := ⟨fun a b => le_total a.2 b.2⟩

instance : IsTrans Point leY := ⟨fun _ _ _ hab hbc => le_trans hab hbc⟩

/-- Python `sorted(l, key=lambda x: x[0])`: a stable sort on the x-coordinate.
Insertion sort is stable with the same tie direction as Python sorted. -/
def sortByX (l : List Point) : List Point := List.insertionSort leX l

/-- Python `sorted(l, key=lambda x: x[1])`: a stable sort on the y-coordinate. -/
def sortByY (l : List Point) : List Point := List.insertionSort leY l

/-- From `bottom_of_polygon`:
`sorted([p for p in points if p[0] == left], key=lambda x: x[1])[0]`,
the lowest-y vertex among the minimum-x vertices (junk `(0,0)` when `points`
is empty, where Python raises an IndexError). -/
def bottomLeftPoint (points : List Point) : Point :=
  (sortByY (points.filter (fun p => p.1 = listMin (points.map Prod.fst)))).headD (0, 0)

/-- From `bottom_of_polygon`:
`sorted([p for p in points if p[0] == right], key=lambda x: x[1])[0]`,
the lowest-y vertex among the maximum-x vertices. -/
def bottomRightPoint (points : List Point) : Point :=
  (sortByY (points.filter (fun p => p.1 = listMax (points.map Prod.fst)))).headD (0, 0)

/-- Python `list.index(a)`: the position of the first element equal to `a`
(junk `l.length` when `a` is absent, where Python raises a ValueError; the
code only calls it on members). -/
def indexOfPt (a : Point) : List Point → Nat
  | [] => 0
  | b :: l => if b = a then 0 else indexOfPt a l + 1

/-- The slice taken by `bottom_of_polygon` before the final reversal:
`points[idx_right : idx_left + 1]` when `idx_left > idx_right`, and the
circular slice `points[idx_right:] + points[: idx_left + 1]` otherwise. -/
def bottomRun (points : List Point) : List Point :=
  let idx_left := indexOfPt (bottomLeftPoint points) points
  let idx_right := indexOfPt (bottomRightPoint points) points
  if idx_right < idx_left then (points.drop idx_right).take (idx_left - idx_right + 1)
  else points.drop idx_right ++ points.take (idx_left + 1)

/-- Embedding of `bottom_of_polygon` (utils.py lines 122-150): select the
lowest-y vertex at the minimum x and at the maximum x, locate both by
`list.index`, slice from the rightmost index to the leftmost index (wrapping
circularly when the leftmost index does not exceed the rightmost index), and
return the slice reversed (`points[::-1]`). -/
def bottom_of_polygon (points : List Point) : List Point := (bottomRun points).reverse

/-- From `top_of_polygon`:
`sorted([p for p in points if p[0] == left], key=lambda x: x[1])[-1]`,
the highest-y vertex among the minimum-x vertices. -/
def topLeftPoint (points : List Point) : Point :=
  (sortByY (points.filter (fun p => p.1 = listMin (points.map Prod.fst)))).getLastD (0, 0)

/-- From `top_of_polygon`:
`sorted([p for p in points if p[0] == right], key=lambda x: x[1])[-1]`,
the highest-y vertex among the maximum-x vertices. -/
def topRightPoint (points : List Point) : Point :=
  (sortByY (points.filter (fun p => p.1 = listMax (points.map Prod.fst)))).getLastD (0, 0)

/-- Embedding of `top_of_polygon` (utils.py lines 93-119): select the
highest-y vertex at the minimum x and at the maximum x, then slice
`points[idx_left : idx_right + 1]` when `idx_right > idx_left`, else the
circular slice `points[idx_left:] + points[: idx_right + 1]`.  No reversal. -/
def top_of_polygon (points : List Point) : List Point :=
  let idx_left := indexOfPt (topLeftPoint points) points
  let idx_right := indexOfPt (topRightPoint points) points
  if idx_left < idx_right then (points.drop idx_left).take (idx_right - idx_left + 1)
  else points.drop idx_left ++ points.take (idx_right + 1)

/-- Modelled from the wording of claim C1, not from the source: extract the
contiguous run of vertices from the leftmost selected index to the rightmost
selected index (wrapping circularly when the rightmost index precedes the
leftmost index), then reverse that run.  Compared against
`bottom_of_polygon`, which slices in the opposite direction. -/
def bottomOfPolygonClaimWording (points : List Point) : List Point :=
  let idx_left := indexOfPt (bottomLeftPoint points) points
  let idx_right := indexOfPt (bottomRightPoint points) points
  let pts := if idx_right < idx_left then points.drop idx_left ++ points.take (idx_right + 1)
    else (points.drop idx_left).take (idx_right - idx_left + 1)
  pts.reverse

/-- Classified result of the shapely call `ls1.intersection(ls2)`.  The
geometric computation is performed by the external shapely library, not by
code of this repository, so it enters the embedding as data; the constructors
are exactly the cases the Python code distinguishes with `type(...)` checks:
empty, `Point`, `MultiPoint`, `LineString`, and anything else. -/
inductive ShapelyResult where
  | empty : ShapelyResult
  | singlePoint : Point → ShapelyResult
  | multiPoint : List Point → ShapelyResult
  | lineString : ShapelyResult
  | other : String → ShapelyResult

/-- The candidate point list `result` the Python branches build from the
classified intersection: `[]` for empty, the one coordinate pair for a
`Point`, all member coordinates for a `MultiPoint`, `[]` (untouched) for a
`LineString`.  The `other` case raises before `result` is used. -/
def shapelyPoints : ShapelyResult → List Point
  | ShapelyResult.empty => []
  | ShapelyResult.singlePoint p => [p]
  | ShapelyResult.multiPoint ps => ps
  | ShapelyResult.lineString => []
  | ShapelyResult.other _ => []

/-- Embedding of `polyline_polyline_intersections` (utils.py lines 63-90),
parametrised by the classified shapely intersection result.  An unhandled
geometry type raises `ValueError("Unimplemented intersection type ...")`;
otherwise the candidate points are filtered by
`not p in points_line1 or p in points_line2`, an empty filter result returns
`[]`, and the rest is returned sorted ascending by x-coordinate. -/
def polyline_polyline_intersections (inter : ShapelyResult)
    (points_line1 points_line2 : List Point) : Except String (List Point) :=
  match inter with
  | ShapelyResult.other _ => Except.error "Unimplemented intersection type"
  | _ =>
    let result := shapelyPoints inter
    let final_result := result.filter (fun p => p ∉ points_line1 ∨ p ∈ points_line2)
    if final_result = [] then Except.ok []
    else Except.ok (sortByX final_result)

/-- Message of the `ValueError` raised by `polyline_z_at` when no consecutive
pair brackets the query x. -/
def outOfRangeMsg : String := "Given x coordinate is not between the start and end of the polyline"

/-- Message of the `ZeroDivisionError` Python raises when the bracketing
segment is vertical, so that `(x - x1) / (x2 - x1)` divides by zero. -/
def divisionByZeroMsg : String := "float division by zero"

/-- The loop of `polyline_z_at` over consecutive pairs `(points[i-1], points[i])`:
on the first pair with `x1 <= x <= x2` it returns
`y1 + (x - x1) / (x2 - x1) * (y2 - y1)`; Python float division raises
`ZeroDivisionError` when the denominator is zero, embedded as the explicit
zero test.  Falling off the loop raises the out-of-range `ValueError`. -/
def polyline_z_at_scan : Point → List Point → ℚ → Except String ℚ
  | _, [], _ => Except.error outOfRangeMsg
  | p1, p2 :: rest, x =>
    if p1.1 ≤ x ∧ x ≤ p2.1 then
      if p2.1 - p1.1 = 0 then Except.error divisionByZeroMsg
      else Except.ok (p1.2 + (x - p1.1) / (p2.1 - p1.1) * (p2.2 - p1.2))
    else polyline_z_at_scan p2 rest x

/-- Embedding of `polyline_z_at` (utils.py lines 153-161).  A list with fewer
than two points makes the loop body run zero times, reaching the raise. -/
def polyline_z_at : List Point → ℚ → Except String ℚ
  | [], _ => Except.error outOfRangeMsg
  | p :: ps, x => polyline_z_at_scan p ps x

/-- The first consecutive pair `(x1,y1)-(x2,y2)` met by the scan of
`polyline_z_at` with `x1 <= x <= x2`, or `none` when no pair brackets x.
This is the same scan as `polyline_z_at_scan`, recording which pair fires. -/
def firstBracket : Point → List Point → ℚ → Option (Point × Point)
  | _, [], _ => none
  | p1, p2 :: rest, x =>
    if p1.1 ≤ x ∧ x ≤ p2.1 then some (p1, p2) else firstBracket p2 rest x

/-- The first bracketing consecutive pair of a whole point list. -/
def firstBracketOf : List Point → ℚ → Option (Point × Point)
  | [], _ => none
  | p :: ps, x => firstBracket p ps x

/-- The clockwise unit square used by the spec examples. -/
def unitSquare : List Point := [(0, 0), (0, 1), (1, 1), (1, 0)]

/-! Helper lemmas about `listMin` and `listMax`. -/

theorem foldl_min_mem (x : ℚ) (xs : List ℚ) : xs.foldl min x ∈ x :: xs := by
  induction xs generalizing x with
  | nil => simp
  | cons y ys ih =>
    simp only [List.foldl_cons]
    rcases List.mem_cons.1 (ih (min x y)) with h1 | h1
    · rw [h1]
      rcases min_choice x y with hm | hm
      · rw [hm]; exact List.mem_cons_self x (y :: ys)
      · rw [hm]; exact List.mem_cons_of_mem x (List.mem_cons_self y ys)
    · exact List.mem_cons_of_mem x (List.mem_cons_of_mem y h1)

theorem foldl_min_le (x : ℚ) (xs : List ℚ) : ∀ y ∈ x :: xs, xs.foldl min x ≤ y := by
  induction xs generalizing x with
  | nil =>
    intro y hy
    have : y = x := by simpa using hy
    rw [this]
    simp
  | cons z zs ih =>
    intro y hy
    simp only [List.foldl_cons]
    rcases List.mem_cons.1 hy with h | h
    · rw [h]
      exact le_trans (ih (min x z) (min x z) (List.mem_cons_self _ _)) (min_le_left x z)
    · rcases List.mem_cons.1 h with h2 | h2
      · rw [h2]
        exact le_trans (ih (min x z) (min x z) (List.mem_cons_self _ _)) (min_le_right x z)
      · exact ih (min x z) y (List.mem_cons_of_mem _ h2)

theorem foldl_max_mem (x : ℚ) (xs : List ℚ) : xs.foldl max x ∈ x :: xs := by
  induction xs generalizing x with
  | nil => simp
  | cons y ys ih =>
    simp only [List.foldl_cons]
    rcases List.mem_cons.1 (ih (max x y)) with h1 | h1
    · rw [h1]
      rcases max_choice x y with hm | hm
      · rw [hm]; exact List.mem_cons_self x (y :: ys)
      · rw [hm]; exact List.mem_cons_of_mem x (List.mem_cons_self y ys)
    · exact List.mem_cons_of_mem x (List.mem_cons_of_mem y h1)

theorem foldl_max_ge (x : ℚ) (xs : List ℚ) : ∀ y ∈ x :: xs, y ≤ xs.foldl max x := by
  induction xs generalizing x with
  | nil =>
    intro y hy
    have : y = x := by simpa using hy
    rw [this]
    simp
  | cons z zs ih =>
    intro y hy
    simp only [List.foldl_cons]
    rcases List.mem_cons.1 hy with h | h
    · rw [h]
      exact le_trans (le_max_left x z) (ih (max x z) (max x z) (List.mem_cons_self _ _))
    · rcases List.mem_cons.1 h with h2 | h2
      · rw [h2]
        exact le_trans (le_max_right x z) (ih (max x z) (max x z) (List.mem_cons_self _ _))
      · exact ih (max x z) y (List.mem_cons_of_mem _ h2)

theorem listMin_mem {l : List ℚ} (h : l ≠ []) : listMin l ∈ l := by
  cases l with
  | nil => exact absurd rfl h
  | cons x xs => exact foldl_min_mem x xs

theorem listMin_le {l : List ℚ} : ∀ y ∈ l, listMin l ≤ y := by
  cases l with
  | nil => intro y hy; simp at hy
  | cons x xs => exact foldl_min_le x xs

theorem listMax_mem {l : List ℚ} (h : l ≠ []) : listMax l ∈ l := by
  cases l with
  | nil => exact absurd rfl h
  | cons x xs => exact foldl_max_mem x xs

theorem le_listMax {l : List ℚ} : ∀ y ∈ l, y ≤ listMax l := by
  cases l with
  | nil => intro y hy; simp at hy
  | cons x xs => exact foldl_max_ge x xs

/-! Helper lemmas about the sorted selections of the polygon extractors. -/

theorem headD_mem {α : Type} {l : List α} (h : l ≠ []) (d : α) : l.headD d ∈ l := by
  cases l with
  | nil => exact absurd rfl h
  | cons x xs => simp

theorem sortByY_ne_nil {l : List Point} (h : l ≠ []) : sortByY l ≠ [] := by
  intro hc
  apply h
  have hp := List.perm_insertionSort leY l
  rw [sortByY] at hc
  rw [hc] at hp
  exact (hp.symm).eq_nil

theorem headD_sortByY_le {l : List Point} (d : Point) :
    ∀ q ∈ l, ((sortByY l).headD d).2 ≤ q.2 := by
  intro q hq
  have hmem : q ∈ sortByY l := (List.mem_insertionSort leY).2 hq
  have hs : List.Sorted leY (sortByY l) := List.sorted_insertionSort leY l
  cases hsort : sortByY l with
  | nil => rw [hsort] at hmem; simp at hmem
  | cons a t =>
    rw [hsort] at hmem hs
    simp only [List.headD_cons]
    rcases List.mem_cons.1 hmem with h | h
    · rw [h]
    · exact List.rel_of_sorted_cons hs q h

theorem bottomLeftPoint_spec {points : List Point} (h : points ≠ []) :
    bottomLeftPoint points ∈ points ∧
    (bottomLeftPoint points).1 = listMin (points.map Prod.fst) ∧
    (∀ q ∈ points, q.1 = listMin (points.map Prod.fst) → (bottomLeftPoint points).2 ≤ q.2) := by
  have hmapne : points.map Prod.fst ≠ [] := by
    intro hc
    exact h (List.map_eq_nil_iff.1 hc)
  have hmm : listMin (points.map Prod.fst) ∈ points.map Prod.fst := listMin_mem hmapne
  rcases List.mem_map.1 hmm with ⟨p, hp, hpx⟩
  have hpf : p ∈ points.filter (fun q => q.1 = listMin (points.map Prod.fst)) :=
    List.mem_filter.2 ⟨hp, decide_eq_true hpx⟩
  have hfil : points.filter (fun q => q.1 = listMin (points.map Prod.fst)) ≠ [] :=
    List.ne_nil_of_mem hpf
  have hhead : bottomLeftPoint points
      ∈ points.filter (fun q => q.1 = listMin (points.map Prod.fst)) := by
    have h1 : bottomLeftPoint points
        ∈ sortByY (points.filter (fun q => q.1 = listMin (points.map Prod.fst))) :=
      headD_mem (sortByY_ne_nil hfil) (0, 0)
    exact (List.mem_insertionSort leY).1 h1
  refine ⟨(List.mem_filter.1 hhead).1, of_decide_eq_true (List.mem_filter.1 hhead).2, ?_⟩
  intro q hq hqx
  have hqf : q ∈ points.filter (fun r => r.1 = listMin (points.map Prod.fst)) :=
    List.mem_filter.2 ⟨hq, decide_eq_true hqx⟩
  exact headD_sortByY_le (0, 0) q hqf

theorem bottomRightPoint_spec {points : List Point} (h : points ≠ []) :
    bottomRightPoint points ∈ points ∧
    (bottomRightPoint points).1 = listMax (points.map Prod.fst) ∧
    (∀ q ∈ points, q.1 = listMax (points.map Prod.fst) → (bottomRightPoint points).2 ≤ q.2) := by
  have hmapne : points.map Prod.fst ≠ [] := by
    intro hc
    exact h (List.map_eq_nil_iff.1 hc)
  have hmm : listMax (points.map Prod.fst) ∈ points.map Prod.fst := listMax_mem hmapne
  rcases List.mem_map.1 hmm with ⟨p, hp, hpx⟩
  have hpf : p ∈ points.filter (fun q => q.1 = listMax (points.map Prod.fst)) :=
    List.mem_filter.2 ⟨hp, decide_eq_true hpx⟩
  have hfil : points.filter (fun q => q.1 = listMax (points.map Prod.fst)) ≠ [] :=
    List.ne_nil_of_mem hpf
  have hhead : bottomRightPoint points
      ∈ points.filter (fun q => q.1 = listMax (points.map Prod.fst)) := by
    have h1 : bottomRightPoint points
        ∈ sortByY (points.filter (fun q => q.1 = listMax (points.map Prod.fst))) :=
      headD_mem (sortByY_ne_nil hfil) (0, 0)
    exact (List.mem_insertionSort leY).1 h1
  refine ⟨(List.mem_filter.1 hhead).1, of_decide_eq_true (List.mem_filter.1 hhead).2, ?_⟩
  intro q hq hqx
  have hqf : q ∈ points.filter (fun r => r.1 = listMax (points.map Prod.fst)) :=
    List.mem_filter.2 ⟨hq, decide_eq_true hqx⟩
  exact headD_sortByY_le (0, 0) q hqf

theorem indexOfPt_lt_length {a : Point} {l : List Point} (h : a ∈ l) :
    indexOfPt a l < l.length := by
  induction l with
  | nil => simp at h
  | cons b t ih =>
    by_cases hb : b = a
    · simp [indexOfPt, hb]
    · have hat : a ∈ t := by
        rcases List.mem_cons.1 h with h1 | h1
        · exact absurd h1.symm hb
        · exact h1
      have := ih hat
      simp only [indexOfPt, if_neg hb, List.length_cons]
      omega

theorem getElem?_indexOfPt {a : Point} {l : List Point} (h : a ∈ l) :
    l[indexOfPt a l]? = some a := by
  induction l with
  | nil => simp at h
  | cons b t ih =>
    by_cases hb : b = a
    · simp [indexOfPt, hb]
    · have hat : a ∈ t := by
        rcases List.mem_cons.1 h with h1 | h1
        · exact absurd h1.symm hb
        · exact h1
      simp only [indexOfPt, if_neg hb, List.getElem?_cons_succ]
      exact ih hat

theorem bottomRun_ends {points : List Point} (h : points ≠ []) :
    (bottomRun points).head? = some (bottomRightPoint points) ∧
    (bottomRun points).getLast? = some (bottomLeftPoint points) := by
  have hbl := (bottomLeftPoint_spec h).1
  have hbr := (bottomRightPoint_spec h).1
  have hil : indexOfPt (bottomLeftPoint points) points < points.length :=
    indexOfPt_lt_length hbl
  have hir : indexOfPt (bottomRightPoint points) points < points.length :=
    indexOfPt_lt_length hbr
  have hgl := getElem?_indexOfPt hbl
  have hgr := getElem?_indexOfPt hbr
  set il := indexOfPt (bottomLeftPoint points) points with hil_def
  set ir := indexOfPt (bottomRightPoint points) points with hir_def
  have hrun : bottomRun points =
      if ir < il then (points.drop ir).take (il - ir + 1)
      else points.drop ir ++ points.take (il + 1) := rfl
  rw [hrun]
  by_cases hcase : ir < il
  · rw [if_pos hcase]
    constructor
    · rw [List.head?_eq_getElem?, List.getElem?_take, if_pos (by omega)]
      rw [List.getElem?_drop, Nat.add_zero, hgr]
    · have hlen : ((points.drop ir).take (il - ir + 1)).length = il - ir + 1 := by
        rw [List.length_take, List.length_drop]
        omega
      rw [List.getLast?_eq_getElem?, hlen]
      have h1 : il - ir + 1 - 1 = il - ir := by omega
      rw [h1, List.getElem?_take, if_pos (by omega), List.getElem?_drop]
      have h2 : ir + (il - ir) = il := by omega
      rw [h2, hgl]
  · rw [if_neg hcase]
    constructor
    · rw [List.head?_append, List.head?_drop, hgr]
      rfl
    · rw [List.getLast?_append, List.getLast?_eq_getElem?, List.length_take]
      have hmin : min (il + 1) points.length = il + 1 := by omega
      rw [hmin]
      have h1 : il + 1 - 1 = il := rfl
      rw [h1, List.getElem?_take, if_pos (by omega), hgl]
      rfl

/-- Claim C1 counterexample: on the clockwise unit square, extracting the run
from the leftmost selected index (0) to the rightmost selected index (3) and
reversing it, as the claim words the computation, yields
`[(1,0),(1,1),(0,1),(0,0)]`, which is not the output `[(0,0),(1,0)]` of
`bottom_of_polygon` and is ordered right-to-left, contradicting the claimed
left-to-right conclusion. -/
theorem C1_counterexample :
    bottom_of_polygon unitSquare = [(0, 0), (1, 0)] ∧
    bottomOfPolygonClaimWording unitSquare = [(1, 0), (1, 1), (0, 1), (0, 0)] ∧
    bottomOfPolygonClaimWording unitSquare ≠ bottom_of_polygon unitSquare ∧
    (bottomOfPolygonClaimWording unitSquare).head? ≠ some ((0 : ℚ), (0 : ℚ)) := by
  decide

/-- Claim C1 (amended): for every nonempty vertex list, `bottom_of_polygon`
selects the minimum-x vertex with lowest y and the maximum-x vertex with
lowest y, extracts the contiguous run of vertices from the rightmost selected
index to the leftmost selected index (wrapping circularly when the leftmost
index does not follow the rightmost index), then reverses that run before
returning, so the returned sequence is ordered left-to-right: its first point
has the minimum x and its last point has the maximum x. -/
theorem C1_bottom_of_polygon_left_to_right (points : List Point) (h : points ≠ []) :
    bottom_of_polygon points = (bottomRun points).reverse ∧
    (bottom_of_polygon points).head? = some (bottomLeftPoint points) ∧
    (bottom_of_polygon points).getLast? = some (bottomRightPoint points) ∧
    (bottomLeftPoint points).1 = listMin (points.map Prod.fst) ∧
    (bottomRightPoint points).1 = listMax (points.map Prod.fst) ∧
    (∀ q ∈ points, q.1 = listMin (points.map Prod.fst) → (bottomLeftPoint points).2 ≤ q.2) ∧
    (∀ q ∈ points, q.1 = listMax (points.map Prod.fst) → (bottomRightPoint points).2 ≤ q.2) := by
  obtain ⟨hbl, hblx, hbly⟩ := bottomLeftPoint_spec h
  obtain ⟨hbr, hbrx, hbry⟩ := bottomRightPoint_spec h
  obtain ⟨hh, hl⟩ := bottomRun_ends h
  refine ⟨rfl, ?_, ?_, hblx, hbrx, hbly, hbry⟩
  · show ((bottomRun points).reverse).head? = some (bottomLeftPoint points)
    rw [List.head?_reverse]
    exact hl
  · show ((bottomRun points).reverse).getLast? = some (bottomRightPoint points)
    rw [List.getLast?_reverse]
    exact hh

/-- Claim C1 witness: the amended theorem evaluated on the clockwise unit
square, whose bottom starts at the minimum-x lowest-y vertex (0,0). -/
theorem C1_witness :
    (bottom_of_polygon unitSquare).head? = some (bottomLeftPoint unitSquare) ∧
    (bottom_of_polygon unitSquare).getLast? = some (bottomRightPoint unitSquare) :=
  ⟨(C1_bottom_of_polygon_left_to_right unitSquare (by decide)).2.1,
   (C1_bottom_of_polygon_left_to_right unitSquare (by decide)).2.2.1⟩

/-- Claim C9: for the clockwise unit square `[(0,0),(0,1),(1,1),(1,0)]`,
`top_of_polygon` returns the upper edge left-to-right `[(0,1),(1,1)]`,
`bottom_of_polygon` returns the lower edge left-to-right `[(0,0),(1,0)]`,
and together the two outputs cover all four vertices. -/
theorem C9_unit_square :
    top_of_polygon unitSquare = [(0, 1), (1, 1)] ∧
    bottom_of_polygon unitSquare = [(0, 0), (1, 0)] ∧
    (∀ p ∈ unitSquare, p ∈ top_of_polygon unitSquare ∨ p ∈ bottom_of_polygon unitSquare) := by
  decide

/-! Lemmas relating the scan of `polyline_z_at` to its first bracketing pair. -/

theorem scan_of_firstBracket_none (p1 : Point) (rest : List Point) (x : ℚ)
    (h : firstBracket p1 rest x = none) :
    polyline_z_at_scan p1 rest x = Except.error outOfRangeMsg := by
  induction rest generalizing p1 with
  | nil => rfl
  | cons p2 tl ih =>
    by_cases hc : p1.1 ≤ x ∧ x ≤ p2.1
    · rw [firstBracket, if_pos hc] at h
      cases h
    · rw [firstBracket, if_neg hc] at h
      rw [polyline_z_at_scan, if_neg hc]
      exact ih p2 h

theorem scan_of_firstBracket_vertical (p1 : Point) (rest : List Point) (x : ℚ) (p q : Point)
    (h : firstBracket p1 rest x = some (p, q)) (hv : p.1 = q.1) :
    polyline_z_at_scan p1 rest x = Except.error divisionByZeroMsg := by
  induction rest generalizing p1 with
  | nil => cases h
  | cons p2 tl ih =>
    by_cases hc : p1.1 ≤ x ∧ x ≤ p2.1
    · rw [firstBracket, if_pos hc] at h
      have hp : p1 = p ∧ p2 = q := by
        have := Option.some.inj h
        exact ⟨congrArg Prod.fst this, congrArg Prod.snd this⟩
      have hz : p2.1 - p1.1 = 0 := by
        rw [hp.1, hp.2, hv]
        ring
      rw [polyline_z_at_scan, if_pos hc, if_pos hz]
    · rw [firstBracket, if_neg hc] at h
      rw [polyline_z_at_scan, if_neg hc]
      exact ih p2 h

theorem scan_of_firstBracket_formula (p1 : Point) (rest : List Point) (x : ℚ) (p q : Point)
    (h : firstBracket p1 rest x = some (p, q)) (hv : p.1 ≠ q.1) :
    polyline_z_at_scan p1 rest x
      = Except.ok (p.2 + (x - p.1) / (q.1 - p.1) * (q.2 - p.2)) := by
  induction rest generalizing p1 with
  | nil => cases h
  | cons p2 tl ih =>
    by_cases hc : p1.1 ≤ x ∧ x ≤ p2.1
    · rw [firstBracket, if_pos hc] at h
      have hp : p1 = p ∧ p2 = q := by
        have := Option.some.inj h
        exact ⟨congrArg Prod.fst this, congrArg Prod.snd this⟩
      have hz : ¬ p2.1 - p1.1 = 0 := by
        rw [hp.1, hp.2]
        exact sub_ne_zero.2 (Ne.symm hv)
      rw [polyline_z_at_scan, if_pos hc, if_neg hz, hp.1, hp.2]
    · rw [firstBracket, if_neg hc] at h
      rw [polyline_z_at_scan, if_neg hc]
      exact ih p2 h

theorem firstBracket_none_of_decreasing (p1 : Point) (rest : List Point) (x : ℚ)
    (h : List.Chain' (fun p q : Point => q.1 < p.1) (p1 :: rest)) :
    firstBracket p1 rest x = none := by
  induction rest generalizing p1 with
  | nil => rfl
  | cons p2 tl ih =>
    have h12 : p2.1 < p1.1 := (List.chain'_cons.1 h).1
    have hc : ¬ (p1.1 ≤ x ∧ x ≤ p2.1) := by
      rintro ⟨ha, hb⟩
      exact absurd (lt_of_le_of_lt (le_trans ha hb) h12) (lt_irrefl p1.1)
    rw [firstBracket, if_neg hc]
    exact ih p2 (List.chain'_cons.1 h).2

/-- Claim C2: when the first consecutive pair `(x1,y1)-(x2,y2)` with
`x1 <= x <= x2` is a vertical segment (`x1 = x2`), `polyline_z_at` raises an
explicit error (in Python, float division by a zero denominator raises
`ZeroDivisionError`) instead of returning a numeric value. -/
theorem C2_vertical_segment_error (points : List Point) (x : ℚ) (p q : Point)
    (h : firstBracketOf points x = some (p, q)) (hv : p.1 = q.1) :
    polyline_z_at points x = Except.error divisionByZeroMsg := by
  cases points with
  | nil => cases h
  | cons p1 ps => exact scan_of_firstBracket_vertical p1 ps x p q h hv

/-- Claim C2 witness: on the vertical polyline `[(2,5),(2,9)]` with `x = 2`,
the first bracketing pair is `((2,5),(2,9))` and the call errors out. -/
theorem C2_witness :
    firstBracketOf [(2, 5), (2, 9)] 2 = some ((2, 5), (2, 9)) ∧
    polyline_z_at [(2, 5), (2, 9)] 2 = Except.error divisionByZeroMsg :=
  ⟨by norm_num [firstBracketOf, firstBracket],
   C2_vertical_segment_error [(2, 5), (2, 9)] 2 (2, 5) (2, 9)
     (by norm_num [firstBracketOf, firstBracket]) rfl⟩

/-- Claim C7: `polyline_z_at` scans consecutive pairs in sequence order and,
at the first pair `(x1,y1)-(x2,y2)` with `x1 <= x <= x2` and `x1 != x2`,
returns exactly `y1 + (x - x1) / (x2 - x1) * (y2 - y1)`; in particular, on
`[(0,0),(10,10)]` with `x = 5` it returns 5. -/
theorem C7_interpolation_formula :
    (∀ (points : List Point) (x : ℚ) (p q : Point),
      firstBracketOf points x = some (p, q) → p.1 ≠ q.1 →
      polyline_z_at points x = Except.ok (p.2 + (x - p.1) / (q.1 - p.1) * (q.2 - p.2))) ∧
    polyline_z_at [(0, 0), (10, 10)] 5 = Except.ok 5 := by
  constructor
  · intro points x p q h hv
    cases points with
    | nil => cases h
    | cons p1 ps => exact scan_of_firstBracket_formula p1 ps x p q h hv
  · norm_num [polyline_z_at, polyline_z_at_scan]

/-- Claim C7 witness: the general formula instantiated on `[(0,0),(10,10)]`
at `x = 5`, where the first bracketing pair is `((0,0),(10,10))`. -/
theorem C7_witness :
    polyline_z_at [(0, 0), (10, 10)] 5
      = Except.ok ((0 : ℚ) + ((5 : ℚ) - 0) / ((10 : ℚ) - 0) * ((10 : ℚ) - 0)) :=
  C7_interpolation_formula.1 [(0, 0), (10, 10)] 5 (0, 0) (10, 10)
    (by norm_num [firstBracketOf, firstBracket]) (by norm_num)

/-- Claim C8: when no consecutive pair brackets x, `polyline_z_at` fails with
the out-of-range error and returns no default value; a polyline whose
x-coordinates are strictly decreasing never brackets any x, so the call
always fails on it; and `[(0,0),(10,10)]` with `x = 15` fails. -/
theorem C8_out_of_range :
    (∀ (points : List Point) (x : ℚ),
      firstBracketOf points x = none →
      polyline_z_at points x = Except.error outOfRangeMsg) ∧
    (∀ (points : List Point) (x : ℚ),
      List.Chain' (fun p q : Point => q.1 < p.1) points →
      polyline_z_at points x = Except.error outOfRangeMsg) ∧
    polyline_z_at [(0, 0), (10, 10)] 15 = Except.error outOfRangeMsg := by
  refine ⟨?_, ?_, by norm_num [polyline_z_at, polyline_z_at_scan]⟩
  · intro points x h
    cases points with
    | nil => rfl
    | cons p1 ps => exact scan_of_firstBracket_none p1 ps x h
  · intro points x h
    cases points with
    | nil => rfl
    | cons p1 ps =>
      exact scan_of_firstBracket_none p1 ps x (firstBracket_none_of_decreasing p1 ps x h)

/-- Claim C8 witness: the strictly decreasing polyline `[(10,10),(0,0)]`
fails even for `x = 5`, which lies strictly inside the x-extent. -/
theorem C8_witness :
    polyline_z_at [(10, 10), (0, 0)] 5 = Except.error outOfRangeMsg :=
  C8_out_of_range.2.1 [(10, 10), (0, 0)] 5 (by norm_num [List.chain'_cons])

/-- Claim C10: with fewer than two points the loop body of `polyline_z_at`
never runs, so the out-of-range error is raised for every query x, including
a query equal to the x-coordinate of a single point. -/
theorem C10_short_list_error (points : List Point) (x : ℚ) (h : points.length < 2) :
    polyline_z_at points x = Except.error outOfRangeMsg := by
  cases points with
  | nil => rfl
  | cons p ps =>
    cases ps with
    | nil => rfl
    | cons q qs =>
      exfalso
      simp only [List.length_cons] at h
      omega

/-- Claim C10 witness: on the single point `[(3,7)]` with the query `x = 3`
equal to the x-coordinate of that point, the call still errors out. -/
theorem C10_witness :
    polyline_z_at [(3, 7)] 3 = Except.error outOfRangeMsg :=
  C10_short_list_error [(3, 7)] 3 (by norm_num)

/-! Lemmas about the filter and sort tail of `polyline_polyline_intersections`. -/

theorem mem_ok_out_iff (result line1 line2 out : List Point) (p : Point) (hp : p ∈ result)
    (h : (if result.filter (fun q => q ∉ line1 ∨ q ∈ line2) = [] then
            (Except.ok [] : Except String (List Point))
          else Except.ok (sortByX (result.filter (fun q => q ∉ line1 ∨ q ∈ line2))))
         = Except.ok out) :
    p ∈ out ↔ (p ∉ line1 ∨ p ∈ line2) := by
  by_cases hf : result.filter (fun q => q ∉ line1 ∨ q ∈ line2) = []
  · rw [if_pos hf] at h
    rw [← Except.ok.inj h]
    simp only [List.not_mem_nil, false_iff]
    intro hk
    have hmem : p ∈ result.filter (fun q => q ∉ line1 ∨ q ∈ line2) :=
      List.mem_filter.2 ⟨hp, decide_eq_true hk⟩
    rw [hf] at hmem
    simp at hmem
  · rw [if_neg hf] at h
    rw [← Except.ok.inj h]
    constructor
    · intro hm
      exact of_decide_eq_true
        (List.mem_filter.1 ((List.mem_insertionSort leX).1 hm)).2
    · intro hk
      exact (List.mem_insertionSort leX).2 (List.mem_filter.2 ⟨hp, decide_eq_true hk⟩)

theorem sorted_if_out (final out : List Point)
    (h : (if final = [] then (Except.ok [] : Except String (List Point))
          else Except.ok (sortByX final)) = Except.ok out) :
    List.Sorted leX out := by
  by_cases hf : final = []
  · rw [if_pos hf] at h
    rw [← Except.ok.inj h]
    exact List.sorted_nil
  · rw [if_neg hf] at h
    rw [← Except.ok.inj h]
    exact List.sorted_insertionSort leX final

/-- Claim C3: a candidate intersection point appears in a successful output of
`polyline_polyline_intersections` if and only if it is not equal to any
vertex of line1 or it is equal to some vertex of line2; exactly the candidate
points coinciding with a vertex of line1 only are dropped, and the filter is
asymmetric between the two inputs. -/
theorem C3_filter_membership (inter : ShapelyResult) (line1 line2 out : List Point)
    (h : polyline_polyline_intersections inter line1 line2 = Except.ok out)
    (p : Point) (hp : p ∈ shapelyPoints inter) :
    p ∈ out ↔ (p ∉ line1 ∨ p ∈ line2) := by
  cases inter with
  | other s => exact Except.noConfusion h
  | empty => exact mem_ok_out_iff (shapelyPoints ShapelyResult.empty) line1 line2 out p hp h
  | singlePoint q =>
    exact mem_ok_out_iff (shapelyPoints (ShapelyResult.singlePoint q)) line1 line2 out p hp h
  | multiPoint ps =>
    exact mem_ok_out_iff (shapelyPoints (ShapelyResult.multiPoint ps)) line1 line2 out p hp h
  | lineString =>
    exact mem_ok_out_iff (shapelyPoints ShapelyResult.lineString) line1 line2 out p hp h

/-- Claim C3 witness: a single intersection point (3,4) that is not a vertex
of line1 `[(0,0)]` is kept in the output `[(3,4)]` even though line2 is
empty. -/
theorem C3_witness :
    (((3 : ℚ), (4 : ℚ)) ∈ ([((3 : ℚ), (4 : ℚ))] : List Point)) ↔
      (((3 : ℚ), (4 : ℚ)) ∉ ([((0 : ℚ), (0 : ℚ))] : List Point) ∨
        ((3 : ℚ), (4 : ℚ)) ∈ ([] : List Point)) :=
  C3_filter_membership (ShapelyResult.singlePoint (3, 4)) [(0, 0)] [] [(3, 4)]
    (by rfl) (3, 4) (by simp [shapelyPoints])

/-- Claim C4: every successful output of `polyline_polyline_intersections`
is sorted in ascending order of the x-coordinate of its points. -/
theorem C4_output_sorted (inter : ShapelyResult) (line1 line2 out : List Point)
    (h : polyline_polyline_intersections inter line1 line2 = Except.ok out) :
    List.Sorted leX out := by
  cases inter with
  | other s => exact Except.noConfusion h
  | empty =>
    exact sorted_if_out
      ((shapelyPoints ShapelyResult.empty).filter (fun q => q ∉ line1 ∨ q ∈ line2)) out h
  | singlePoint q =>
    exact sorted_if_out
      ((shapelyPoints (ShapelyResult.singlePoint q)).filter
        (fun r => r ∉ line1 ∨ r ∈ line2)) out h
  | multiPoint ps =>
    exact sorted_if_out
      ((shapelyPoints (ShapelyResult.multiPoint ps)).filter
        (fun q => q ∉ line1 ∨ q ∈ line2)) out h
  | lineString =>
    exact sorted_if_out
      ((shapelyPoints ShapelyResult.lineString).filter (fun q => q ∉ line1 ∨ q ∈ line2)) out h

/-- Claim C4 witness: the multi-point result `[(3,1),(1,2)]` is returned
reordered as `[(1,2),(3,1)]`, sorted ascending by x. -/
theorem C4_witness : List.Sorted leX [((1 : ℚ), (2 : ℚ)), ((3 : ℚ), (1 : ℚ))] :=
  C4_output_sorted (ShapelyResult.multiPoint [(3, 1), (1, 2)]) [] [] [(1, 2), (3, 1)] (by rfl)

/-- Claim C5: when the geometric intersection is an overlapping collinear
segment (a line-string), `polyline_polyline_intersections` returns the empty
sequence; segment overlaps contribute no discrete points. -/
theorem C5_linestring_overlap_empty (line1 line2 : List Point) :
    polyline_polyline_intersections ShapelyResult.lineString line1 line2 = Except.ok [] := rfl

/-- Claim C6: when the geometric intersection is non-empty and neither a
point, nor a multi-point, nor a line-string, `polyline_polyline_intersections`
fails with the unsupported (unimplemented) intersection type error and
returns no result sequence. -/
theorem C6_unsupported_intersection_error (s : String) (line1 line2 : List Point) :
    polyline_polyline_intersections (ShapelyResult.other s) line1 line2
      = Except.error "Unimplemented intersection type" := rfl

end Geolib
